import Mathlib

/-!
Shallow embedding of the stratus execution-engine core (executor, layered
storage, in-memory temporary storage, block primitives), translated from the
Rust sources under src/eth.  Machine integers are modelled as Nat: the claims
under verification are control-flow and data-flow properties, not overflow
properties.  Fallible Rust code is modelled with Except; trait objects
(pluggable EVM and permanent storage) are modelled as function parameters or
spec-modelled in-memory states.
-/

set_option autoImplicit false

namespace Stratus

/-! ## Primitive newtypes (src/eth/primitives) -/

/-- 20-byte account identity (`Address`); the zero address is 0. -/
abbrev Address := Nat

/-- 32-byte digest (`Hash`). -/
abbrev Hash := Nat

/-- Unsigned numeric newtype (`Nonce`). -/
abbrev Nonce := Nat

/-- Unsigned numeric newtype (`Amount`, wei). -/
abbrev Wei := Nat

/-- Unsigned numeric newtype (`Gas`). -/
abbrev Gas := Nat

/-- 32-byte storage key (`SlotIndex`). -/
abbrev SlotIndex := Nat

/-- 32-byte storage value (`SlotValue`). -/
abbrev SlotValue := Nat

/-- Opaque byte sequence (`Bytes`). -/
abbrev Bytes := List Nat

/-- Block number newtype (`BlockNumber`). -/
abbrev BlockNumber := Nat

/-- `Slot`: an (index, value) pair; Rust `Default` is all-zero. -/
structure Slot where
  index : SlotIndex
  value : SlotValue
deriving DecidableEq

/-- Rust `Slot::default()`. -/
def Slot.defaultSlot : Slot := { index := 0, value := 0 }

/-- `Account` (src/eth/primitives): address, nonce, balance, optional
bytecode, code hash and the two slot-index sets copied around by the
in-memory temporary storage. -/
structure Account where
  address : Address
  nonce : Nonce
  balance : Wei
  bytecode : Option Bytes
  code_hash : Hash
  static_slot_indexes : List SlotIndex
  mapping_slot_indexes : List SlotIndex
deriving DecidableEq

/-- Rust `Account::default()`: every field at its default. -/
def Account.defaultAccount : Account :=
  { address := 0, nonce := 0, balance := 0, bytecode := none, code_hash := 0
    static_slot_indexes := [], mapping_slot_indexes := [] }

/-- Modelled from the spec: `Account::new_empty(address)` (account.rs is not
part of the provided sources) — an empty account at the given address,
exactly the default account except for the address. -/
def Account.new_empty (address : Address) : Account :=
  { Account.defaultAccount with address := address }

/-- An EVM log: emitting address, topics and data. -/
structure Log where
  address : Address
  topics : List Hash
  data : Bytes
deriving DecidableEq

/-- EVM result kind of an `Execution`: success, revert or halt. -/
inductive ExecutionResult where
  | success
  | reverted
  | halted
deriving DecidableEq

/-- An `ExecutionValueChange`: an (original, modified) pair of optional
values; `take()` yields the modified side when present (the delta). -/
structure ValueChange (α : Type) where
  original : Option α
  modified : Option α
deriving DecidableEq

/-- `ExecutionValueChange::take()`: the modified (written) value, if any. -/
def ValueChange.take {α : Type} (c : ValueChange α) : Option α := c.modified

/-- A delta that writes nothing. -/
def ValueChange.noChange {α : Type} : ValueChange α := { original := none, modified := none }

/-- A delta that writes `v`. -/
def ValueChange.write {α : Type} (v : α) : ValueChange α := { original := none, modified := some v }

/-- `ExecutionAccountChanges`: the per-address deltas carried by an
`Execution`, with the exact field shapes consumed by
`InMemoryTemporaryStorage::save_execution` (bytecode is doubly optional,
slot deltas are keyed lists of `ValueChange Slot`). -/
structure AccountChange where
  address : Address
  nonce : ValueChange Nonce
  balance : ValueChange Wei
  bytecode : ValueChange (Option Bytes)
  static_slot_indexes : ValueChange (List SlotIndex)
  mapping_slot_indexes : ValueChange (List SlotIndex)
  slots : List (SlotIndex × ValueChange Slot)
deriving DecidableEq

/-- An `AccountChange` that changes nothing at the given address. -/
def AccountChange.empty (address : Address) : AccountChange :=
  { address := address, nonce := ValueChange.noChange, balance := ValueChange.noChange
    bytecode := ValueChange.noChange, static_slot_indexes := ValueChange.noChange
    mapping_slot_indexes := ValueChange.noChange, slots := [] }

/-- `Execution`: result kind, return data, gas used, logs, state deltas and
the deployed contract address (for creates). -/
structure Execution where
  result : ExecutionResult
  output : Bytes
  gas : Gas
  logs : List Log
  changes : List AccountChange
  contract_address : Option Address
deriving DecidableEq

/-- Modelled from the spec: `Execution::changes_to_persist()`
(transaction_execution.rs is not part of the provided sources) — the list of
account changes the execution wants persisted. -/
def Execution.changes_to_persist (e : Execution) : List AccountChange := e.changes

/-- A `TransactionExecution` as stored by temporary storage: transaction
hash plus its execution. -/
structure TransactionExecution where
  hash : Hash
  execution : Execution
deriving DecidableEq

/-! ## Association-list model of Rust HashMap -/

/-- Lookup in an association list (first matching key). -/
def alist.get? {V : Type} : List (Nat × V) → Nat → Option V
  | [], _ => none
  | (k, v) :: rest, key => if k = key then some v else alist.get? rest key

/-- Insert-or-replace in an association list (HashMap insert). -/
def alist.insert {V : Type} : List (Nat × V) → Nat → V → List (Nat × V)
  | [], key, v => [(key, v)]
  | (k, w) :: rest, key, v =>
      if k = key then (key, v) :: rest else (k, w) :: alist.insert rest key v

theorem alist.get_insert {V : Type} (m : List (Nat × V)) (k : Nat) (v : V) (q : Nat) :
    alist.get? (alist.insert m k v) q = if k = q then some v else alist.get? m q := by
  induction m with
  | nil => simp [alist.insert, alist.get?]
  | cons hd tl ih =>
      obtain ⟨k0, v0⟩ := hd
      by_cases h0 : k0 = k
      · subst h0
        by_cases hq : k0 = q <;> simp [alist.insert, alist.get?, hq]
      · by_cases hq : k0 = q
        · subst hq
          have hkq : ¬k = k0 := fun h => h0 h.symm
          simp [alist.insert, alist.get?, h0, hkq]
        · simp [alist.insert, alist.get?, h0, hq, ih]

/-! ## Transactions and blocks (src/eth/primitives) -/

/-- `TransactionInput`: a signed transaction (hash, signer, optional
recipient, nonce, value, calldata, gas and signature components). -/
structure TransactionInput where
  hash : Hash
  signer : Address
  to_address : Option Address
  nonce : Nonce
  value : Wei
  input : Bytes
  gas : Gas
  v : Nat
  r : Nat
  s : Nat
deriving DecidableEq

/-- `Address::is_zero()` for the signer check in `transact`. -/
def TransactionInput.signerIsZero (tx : TransactionInput) : Bool := tx.signer = 0

/-- `TransactionMined`: input + execution + block-positional metadata. -/
structure TransactionMined where
  input : TransactionInput
  execution : Execution
  index : Nat
  block_hash : Hash
  block_number : BlockNumber
deriving DecidableEq

/-- `BlockHeader` with the fields listed by the data model: number,
parent hash, roots, bloom, gas used, timestamp, miner and hash. -/
structure BlockHeader where
  number : BlockNumber
  parent_hash : Hash
  state_root : Hash
  transactions_root : Hash
  receipts_root : Hash
  logs_bloom : Nat
  gas_used : Gas
  timestamp : Nat
  miner : Address
  hash : Hash
deriving DecidableEq

/-- `BlockHeader::new(number)`: a header for the given number with every
other field at its default. -/
def BlockHeader.new (number : BlockNumber) : BlockHeader :=
  { number := number, parent_hash := 0, state_root := 0, transactions_root := 0
    receipts_root := 0, logs_bloom := 0, gas_used := 0, timestamp := 0
    miner := 0, hash := 0 }

/-- `Block`: header plus ordered mined transactions (block.rs). -/
structure Block where
  header : BlockHeader
  transactions : List TransactionMined
deriving DecidableEq

/-- `Block::new(number)`: empty block at the given number (block.rs). -/
def Block.new (number : BlockNumber) : Block :=
  { header := BlockHeader.new number, transactions := [] }

/-- `ExternalTransaction`: upstream transaction representation used by
the importing pipeline; only its hash and payload matter to the claims. -/
structure ExternalTransaction where
  hash : Hash
  payload : Bytes
deriving DecidableEq

/-- `ExternalBlock`: upstream block used by `import_offline`. -/
structure ExternalBlock where
  number : BlockNumber
  hash : Hash
  transactions : List ExternalTransaction
deriving DecidableEq

/-- `ExternalReceipt`: the upstream receipt fields that
`compare_with_receipt` verifies (status, contract address on create, gas
used and logs). -/
structure ExternalReceipt where
  status : ExecutionResult
  contract_address : Option Address
  gas_used : Gas
  logs : List Log
deriving DecidableEq

/-- Modelled from the spec: `Execution::compare_with_receipt`
(transaction_execution.rs is not part of the provided sources) — the
re-execution must match the external receipt on status, contract address
(on create), gas used and the ordered list of logs; a mismatch is an error. -/
def Execution.compare_with_receipt (e : Execution) (r : ExternalReceipt) : Except String Unit :=
  if e.result = r.status ∧ e.contract_address = r.contract_address ∧
      e.gas = r.gas_used ∧ e.logs = r.logs then
    Except.ok ()
  else
    Except.error "mismatch reexecuting transaction"

/-- Modelled from the spec: `Block::from_external(block, executions)`
(block.rs in the provided sources does not carry this constructor) —
assemble the local block from the external block plus the ordered
(tx, receipt, execution) triples. -/
def Block.from_external (eb : ExternalBlock)
    (execs : List (ExternalTransaction × ExternalReceipt × Execution)) : Block :=
  { header := { BlockHeader.new eb.number with hash := eb.hash }
    transactions :=
      (List.range execs.length).zip execs |>.map fun p =>
        { input := { hash := p.2.1.hash, signer := 0, to_address := none, nonce := 0, value := 0
                     input := p.2.1.payload, gas := 0, v := 0, r := 0, s := 0 }
          execution := p.2.2.2
          index := p.1
          block_hash := eb.hash
          block_number := eb.number } }

/-! ## Conflicts and storage errors -/

/-- One entry of `ExecutionConflicts`: an `(address[, slot])` with the
expected original and the actual value found. -/
structure ExecutionConflict where
  address : Address
  slot : Option SlotIndex
  expected : SlotValue
  actual : SlotValue
deriving DecidableEq

/-- `ExecutionConflicts`: set of conflict entries (non-empty when reported). -/
abbrev ExecutionConflicts := List ExecutionConflict

/-- Modelled from the spec: `EthStorageError` (the storage error module is
not part of the provided sources) — a commit conflict is a dedicated error
variant (`Conflict`), every other storage failure is `Other`; the question
mark conversion from a generic error lands in `Other`. -/
inductive EthStorageError where
  | Conflict (conflicts : ExecutionConflicts)
  | Other (msg : String)
deriving DecidableEq

/-- `StoragePointInTime`: `Present` or `Past(block number)`. -/
inductive StoragePointInTime where
  | Present
  | Past (number : BlockNumber)
deriving DecidableEq

/-- `BlockSelection`: `Latest`, `Earliest`, `Number(n)` or `Hash(h)`. -/
inductive BlockSelection where
  | Latest
  | Earliest
  | Number (number : BlockNumber)
  | Hash (hash : Hash)
deriving DecidableEq

/-! ## In-memory temporary storage (inmemory_temporary.rs) -/

/-- `InMemoryTemporaryAccount`: account info plus its pending slots. -/
structure InMemoryTemporaryAccount where
  info : Account
  slots : List (SlotIndex × Slot)
deriving DecidableEq

/-- `InMemoryTemporaryAccount::new(address)`. -/
def InMemoryTemporaryAccount.new (address : Address) : InMemoryTemporaryAccount :=
  { info := Account.new_empty address, slots := [] }

/-- `InMemoryTemporaryStorageState`: external block being re-executed,
pending executions, pending account overlay and the active block number. -/
structure InMemoryTemporaryStorageState where
  external_block : Option ExternalBlock
  tx_executions : List TransactionExecution
  accounts : List (Address × InMemoryTemporaryAccount)
  active_block_number : Option BlockNumber
deriving DecidableEq

namespace InMemoryTemporaryStorageState

/-- The empty temporary state (Rust `Default`). -/
def empty : InMemoryTemporaryStorageState :=
  { external_block := none, tx_executions := [], accounts := [], active_block_number := none }

/-- `InMemoryTemporaryStorageState::reset`: clear every field. -/
def reset (_s : InMemoryTemporaryStorageState) : InMemoryTemporaryStorageState := empty

/-- The per-change body of `save_execution` (lines 94-124): fetch or create
the entry for the address, overwrite nonce/balance on a present delta,
overwrite bytecode only on a doubly-present delta, replace the slot-index
sets on present deltas, and insert every present slot delta keyed by the
slot's own index. -/
def applyAccountChange (acc : InMemoryTemporaryAccount) (change : AccountChange) :
    InMemoryTemporaryAccount :=
  let info := acc.info
  let info := match change.nonce.take with
    | some n => { info with nonce := n }
    | none => info
  let info := match change.balance.take with
    | some b => { info with balance := b }
    | none => info
  let info := match change.bytecode.take with
    | some (some bc) => { info with bytecode := some bc }
    | _ => info
  let info := match change.static_slot_indexes.take with
    | some ixs => { info with static_slot_indexes := ixs }
    | none => info
  let info := match change.mapping_slot_indexes.take with
    | some ixs => { info with mapping_slot_indexes := ixs }
    | none => info
  let slots := change.slots.foldl
    (fun ss p =>
      match p.2.take with
      | some slot => alist.insert ss slot.index slot
      | none => ss)
    acc.slots
  { info := info, slots := slots }

/-- `save_execution(tx)` (lines 87-130): merge every account change of the
execution into the per-address accumulators, then append the execution to
the ordered pending list.  (The storage facade's `save_account_changes`
delegates here.) -/
def save_execution (s : InMemoryTemporaryStorageState) (tx : TransactionExecution) :
    InMemoryTemporaryStorageState :=
  let s :=
    tx.execution.changes_to_persist.foldl
      (fun st change =>
        let account := (alist.get? st.accounts change.address).getD
          (InMemoryTemporaryAccount.new change.address)
        { st with accounts :=
            alist.insert st.accounts change.address (applyAccountChange account change) })
      s
  { s with tx_executions := s.tx_executions ++ [tx] }

/-- `read_executions` (lines 132-136). -/
def read_executions (s : InMemoryTemporaryStorageState) : List TransactionExecution :=
  s.tx_executions

/-- `remove_executions_before(index)` (lines 138-148): a no-op at index 0,
otherwise `drain(..index-1)`; the drain panics (modelled as `none`) when
`index - 1` exceeds the list length. -/
def remove_executions_before (s : InMemoryTemporaryStorageState) (index : Nat) :
    Option InMemoryTemporaryStorageState :=
  if index = 0 then some s
  else if index - 1 ≤ s.tx_executions.length then
    some { s with tx_executions := s.tx_executions.drop (index - 1) }
  else none

/-- `read_account(address)` (lines 164-189): the overlay view only. -/
def read_account (s : InMemoryTemporaryStorageState) (address : Address) : Option Account :=
  match alist.get? s.accounts address with
  | some account =>
      some { address := account.info.address, balance := account.info.balance
             nonce := account.info.nonce, bytecode := account.info.bytecode
             code_hash := account.info.code_hash
             static_slot_indexes := account.info.static_slot_indexes
             mapping_slot_indexes := account.info.mapping_slot_indexes }
  | none => none

/-- `read_slot(address, index)` (lines 191-211): the overlay view only; a
missing account answers the Option default (no slot). -/
def read_slot (s : InMemoryTemporaryStorageState) (address : Address) (index : SlotIndex) :
    Option Slot :=
  match alist.get? s.accounts address with
  | none => none
  | some account => alist.get? account.slots index

end InMemoryTemporaryStorageState

deriving instance DecidableEq for Except

/-! ## Permanent storage (spec-modelled) and the layered facade -/

/-- Modelled from the spec: an in-memory permanent storage satisfying the
pluggable `PermanentStorage` interface of §4.3 (no implementation of the
trait is part of the provided sources): committed blocks in commit order, a
current block-number counter, and one committed account/slot snapshot. -/
structure PermanentState where
  blocks : List Block
  current_number : BlockNumber
  accounts : List (Address × Account)
  account_slots : List (Address × List (SlotIndex × Slot))
deriving DecidableEq

namespace PermanentState

/-- A fresh permanent storage with only genesis state. -/
def empty : PermanentState :=
  { blocks := [], current_number := 0, accounts := [], account_slots := [] }

/-- Modelled from the spec: `read_current_block_number` returns the highest
committed block number. -/
def read_current_block_number (p : PermanentState) : BlockNumber := p.current_number

/-- Modelled from the spec: `increment_block_number` atomically increments
the counter, returning the new value. -/
def increment_block_number (p : PermanentState) : BlockNumber × PermanentState :=
  (p.current_number + 1, { p with current_number := p.current_number + 1 })

/-- Modelled from the spec: `read_block(selection)` resolves a block
selection against the committed chain (blocks are kept in commit order from
genesis). -/
def read_block (p : PermanentState) (selection : BlockSelection) : Option Block :=
  match selection with
  | .Latest => p.blocks.getLast?
  | .Earliest => p.blocks.head?
  | .Number n => p.blocks.find? fun b => b.header.number = n
  | .Hash h => p.blocks.find? fun b => b.header.hash = h

/-- Modelled from the spec: `save_block(block)` atomically appends the
block to the committed chain (this minimal model always succeeds). -/
def save_block (p : PermanentState) (block : Block) :
    Except EthStorageError Unit × PermanentState :=
  (Except.ok (), { p with blocks := p.blocks ++ [block] })

/-- Modelled from the spec: `maybe_read_account` over the committed
snapshot; the point-in-time parameter is accepted as in the interface. -/
def maybe_read_account (p : PermanentState) (address : Address)
    (_point_in_time : StoragePointInTime) : Option Account :=
  alist.get? p.accounts address

/-- Modelled from the spec: `maybe_read_slot` over the committed snapshot. -/
def maybe_read_slot (p : PermanentState) (address : Address) (index : SlotIndex)
    (_point_in_time : StoragePointInTime) : Option Slot :=
  match alist.get? p.account_slots address with
  | some slots => alist.get? slots index
  | none => none

end PermanentState

/-- `StratusStorage` state: the in-memory temporary overlay in front of the
permanent store. -/
structure StratusState where
  temp : InMemoryTemporaryStorageState
  perm : PermanentState
deriving DecidableEq

namespace StratusState

/-- `StratusStorage::read_account` (stratus_storage.rs lines 69-83): try the
temporary overlay, else the permanent store, else a default account carrying
the queried address.  (The temporary read of this source snapshot takes no
point-in-time parameter.) -/
def read_account (s : StratusState) (address : Address)
    (point_in_time : StoragePointInTime) : Account :=
  match s.temp.read_account address with
  | some account => account
  | none =>
      match s.perm.maybe_read_account address point_in_time with
      | some account => account
      | none => { Account.defaultAccount with address := address }

/-- `StratusStorage::read_slot` (stratus_storage.rs lines 86-100): same
fallthrough; a default slot carrying the queried index on a double miss. -/
def read_slot (s : StratusState) (address : Address) (slot_index : SlotIndex)
    (point_in_time : StoragePointInTime) : Slot :=
  match s.temp.read_slot address slot_index with
  | some slot => slot
  | none =>
      match s.perm.maybe_read_slot address slot_index point_in_time with
      | some slot => slot
      | none => { Slot.defaultSlot with index := slot_index }

/-- `StratusStorage::save_account_changes` (lines 125-130): delegate to the
temporary storage, which merges the changes and records the execution. -/
def save_account_changes (s : StratusState) (_block_number : BlockNumber)
    (tx : TransactionExecution) : StratusState :=
  { s with temp := s.temp.save_execution tx }

/-- `StratusStorage::reset_temp` (lines 157-162): reset the temporary
overlay (the in-memory reset always succeeds). -/
def reset_temp (s : StratusState) : StratusState :=
  { s with temp := s.temp.reset }

/-- `StratusStorage::commit` (lines 105-114) instantiated with the
in-memory temporary storage: save the block in permanent storage, then reset
temporary storage, and answer the save result (the in-memory reset cannot
fail). -/
def commit (s : StratusState) (block : Block) :
    Except EthStorageError Unit × StratusState :=
  let (result, perm) := s.perm.save_block block
  (result, { temp := s.temp.reset, perm := perm })

/-- `StratusStorage::translate_to_point_in_time` (lines 184-202). -/
def translate_to_point_in_time (s : StratusState) (block_selection : BlockSelection) :
    Except String StoragePointInTime :=
  match block_selection with
  | .Latest => Except.ok StoragePointInTime.Present
  | .Number number =>
      let current_block := s.perm.read_current_block_number
      if number ≤ current_block then Except.ok (StoragePointInTime.Past number)
      else Except.ok (StoragePointInTime.Past current_block)
  | .Earliest | .Hash _ =>
      match s.perm.read_block block_selection with
      | some block => Except.ok (StoragePointInTime.Past block.header.number)
      | none =>
          Except.error
            "failed to select block because it is greater than current block number or block hash is invalid."

end StratusState

/-- Trace entry for the storage calls made by the generic `commit`. -/
inductive StorageCall where
  | saveBlock (block : Block)
  | resetTemp
deriving DecidableEq

/-- `StratusStorage::commit` (stratus_storage.rs lines 105-114) over the
pluggable trait objects, represented by the save and reset functions the
facade would call: `save_block` runs first, `reset` runs unconditionally
afterwards, a failed reset is propagated by the question mark (landing in
the `Other` variant), and otherwise the save result is answered.  The call
list records the two calls the body makes, in order. -/
def commitGeneric (block : Block) (save_block : Block → Except EthStorageError Unit)
    (reset : Unit → Except String Unit) :
    Except EthStorageError Unit × List StorageCall :=
  let result := save_block block
  match reset () with
  | Except.error e => (Except.error (EthStorageError.Other e), [.saveBlock block, .resetTemp])
  | Except.ok _ => (result, [.saveBlock block, .resetTemp])

/-! ## Executor (executor.rs) -/

/-- One iteration of the optimistic loop of `mine_and_execute_transaction`,
with the environment's answers for the three fallible interactions: the EVM
worker result, the pre-mining conflict check (spec-modelled total, §4.2) and
the commit outcome.  Mining itself is total per §4.5. -/
structure LoopIteration where
  evm : Except String Execution
  conflicts : Option ExecutionConflicts
  commit : Except EthStorageError Unit
deriving DecidableEq

/-- The errors `transact` can produce. -/
inductive TransactError where
  | zeroSigner (msg : String)
  | evm (msg : String)
  | storage (e : EthStorageError)
deriving DecidableEq

/-- Result of `transact`: success with the committed execution, an error, or
`pending` when the given environment trace ends while the unbounded loop is
still retrying. -/
inductive TransactResult where
  | ok (execution : Execution)
  | err (e : TransactError)
  | pending
deriving DecidableEq

/-- `mine_and_execute_transaction` (executor.rs lines 203-244): execute,
retry on a pre-mining conflict, mine, commit, retry on a commit conflict,
fail on any other error, and answer the execution whose commit succeeded. -/
def mine_and_execute_transaction : List LoopIteration → TransactResult
  | [] => .pending
  | it :: rest =>
    match it.evm with
    | Except.error e => .err (.evm e)
    | Except.ok execution =>
      match it.conflicts with
      | some _ => mine_and_execute_transaction rest
      | none =>
        match it.commit with
        | Except.ok _ => .ok execution
        | Except.error (.Conflict _) => mine_and_execute_transaction rest
        | Except.error (.Other msg) => .err (.storage (.Other msg))

/-- The zero-address rejection message of `transact` (executor.rs line 183). -/
def zeroSignerMsg : String := "Transaction sent from zero address is not allowed."

/-- `transact` (executor.rs lines 168-188): reject a zero signer before any
EVM dispatch, otherwise run the optimistic loop. -/
def transact (transaction : TransactionInput) (iters : List LoopIteration) : TransactResult :=
  if transaction.signerIsZero then .err (.zeroSigner zeroSignerMsg)
  else mine_and_execute_transaction iters

/-- An iteration the loop retries past: the EVM succeeded but either the
pre-mining conflict check reported conflicts or the commit failed with the
dedicated `Conflict` variant. -/
def LoopIteration.retries (it : LoopIteration) : Bool :=
  match it.evm, it.conflicts, it.commit with
  | Except.ok _, some _, _ => true
  | Except.ok _, none, Except.error (.Conflict _) => true
  | _, _, _ => false

/-- Number of `EvmInput`s sent to the worker pool by the loop on the given
environment trace (one per iteration entered). -/
def evmDispatches : List LoopIteration → Nat
  | [] => 0
  | it :: rest => 1 + (if it.retries then evmDispatches rest else 0)

/-- Number of `commit` calls made by the loop on the given trace. -/
def commitAttempts : List LoopIteration → Nat
  | [] => 0
  | it :: rest =>
    match it.evm with
    | Except.error _ => 0
    | Except.ok _ =>
      match it.conflicts with
      | some _ => commitAttempts rest
      | none =>
        match it.commit with
        | Except.error (.Conflict _) => 1 + commitAttempts rest
        | _ => 1

/-- `EvmInput`s sent by `transact` (zero when the signer is rejected). -/
def transactEvmDispatches (transaction : TransactionInput) (iters : List LoopIteration) : Nat :=
  if transaction.signerIsZero then 0 else evmDispatches iters

/-- `commit` calls made by `transact` (zero when the signer is rejected). -/
def transactCommitAttempts (transaction : TransactionInput) (iters : List LoopIteration) : Nat :=
  if transaction.signerIsZero then 0 else commitAttempts iters

/-! ## Offline import (executor.rs lines 76-126) -/

/-- A verified `(tx, receipt, execution)` triple of the offline import. -/
abbrev ReexecutedTriple := ExternalTransaction × ExternalReceipt × Execution

/-- Permanent-storage calls observable from `import_offline`. -/
inductive PermCall where
  | incrementBlockNumber
  | commitBlock (block : Block)
deriving DecidableEq

/-- What `import_offline` produces: its result, the storage state after the
call, and the permanent-storage calls it made. -/
structure ImportOutcome where
  result : Except String Unit
  state : StratusState
  permCalls : List PermCall
deriving DecidableEq

/-- The per-transaction re-execution loop of `import_offline` (lines
80-115): look up the receipt (missing is fatal), re-execute through the EVM
(the pluggable EVM is the `evm` parameter), compare with the receipt
(mismatch is fatal), and only then seed the temporary overlay through
`save_account_changes`, accumulating the verified triples. -/
def reexecuteExternal (evm : ExternalTransaction → Except String Execution)
    (receipts : Hash → Option ExternalReceipt) (block_number : BlockNumber) :
    List ExternalTransaction → StratusState → List ReexecutedTriple →
    Except String (List ReexecutedTriple) × StratusState
  | [], s, acc => (Except.ok acc, s)
  | tx :: rest, s, acc =>
    match receipts tx.hash with
    | none => (Except.error "receipt is missing", s)
    | some receipt =>
      match evm tx with
      | Except.error e => (Except.error e, s)
      | Except.ok execution =>
        match execution.compare_with_receipt receipt with
        | Except.error e => (Except.error e, s)
        | Except.ok _ =>
            reexecuteExternal evm receipts block_number rest
              (s.save_account_changes block_number { hash := tx.hash, execution := execution })
              (acc ++ [(tx, receipt, execution)])

/-- `import_offline` (executor.rs lines 76-126): re-execute and verify every
transaction, then assemble the block, increment the block number and commit.
Any failure in the loop returns immediately, before either permanent-storage
call. -/
def import_offline (evm : ExternalTransaction → Except String Execution)
    (receipts : Hash → Option ExternalReceipt) (eb : ExternalBlock)
    (s : StratusState) : ImportOutcome :=
  match reexecuteExternal evm receipts eb.number eb.transactions s [] with
  | (Except.error e, s1) => { result := Except.error e, state := s1, permCalls := [] }
  | (Except.ok triples, s1) =>
      let block := Block.from_external eb triples
      let (_, perm1) := s1.perm.increment_block_number
      let s2 : StratusState := { s1 with perm := perm1 }
      let (commitResult, s3) := s2.commit block
      { result :=
          match commitResult with
          | Except.ok _ => Except.ok ()
          | Except.error (.Conflict _) => Except.error "commit conflict"
          | Except.error (.Other msg) => Except.error msg
        state := s3
        permCalls := [.incrementBlockNumber, .commitBlock block] }

/-! ## Block wire format (block.rs serialization) -/

/-- The canonical Ethereum JSON transaction shape
(`ethers_core::types::Transaction`): wire fields only — a transaction on the
wire carries no execution result and no logs. -/
structure EthersTransaction where
  hash : Hash
  nonce : Nonce
  block_hash : Option Hash
  block_number : Option BlockNumber
  transaction_index : Option Nat
  from_address : Address
  to_address : Option Address
  value : Wei
  gas : Gas
  input : Bytes
  v : Nat
  r : Nat
  s : Nat
deriving DecidableEq

/-- The canonical Ethereum JSON block shape
(`ethers_core::types::Block<Transaction>`). -/
structure EthersBlock where
  number : Option BlockNumber
  hash : Option Hash
  parent_hash : Hash
  state_root : Hash
  transactions_root : Hash
  receipts_root : Hash
  logs_bloom : Option Nat
  gas_used : Gas
  timestamp : Nat
  miner : Option Address
  transactions : List EthersTransaction
deriving DecidableEq

/-- Modelled from the spec: `From<BlockHeader> for EthersBlock`
(block_header.rs is not part of the provided sources) — each header field is
copied into the canonical shape; the transaction list is filled in later. -/
def BlockHeader.toEthersBlock (h : BlockHeader) : EthersBlock :=
  { number := some h.number, hash := some h.hash, parent_hash := h.parent_hash
    state_root := h.state_root, transactions_root := h.transactions_root
    receipts_root := h.receipts_root, logs_bloom := some h.logs_bloom
    gas_used := h.gas_used, timestamp := h.timestamp, miner := some h.miner
    transactions := [] }

/-- Modelled from the spec: `From<TransactionMined> for EthersTransaction`
(transaction_mined.rs is not part of the provided sources) — the wire
transaction carries the input fields plus the block-positional metadata; the
shape has no field for the execution or its logs. -/
def TransactionMined.toEthersTransaction (t : TransactionMined) : EthersTransaction :=
  { hash := t.input.hash, nonce := t.input.nonce, block_hash := some t.block_hash
    block_number := some t.block_number, transaction_index := some t.index
    from_address := t.input.signer, to_address := t.input.to_address
    value := t.input.value, gas := t.input.gas, input := t.input.input
    v := t.input.v, r := t.input.r, s := t.input.s }

/-- `From<&Block> for EthersBlock<EthersTransaction>` (block.rs lines
62-71): convert the header, then put the mapped transactions in place.
`impl serde::Serialize for Block` (lines 50-57) serializes exactly this
value, so this conversion is the wire content of a serialized block. -/
def Block.serializeEthers (b : Block) : EthersBlock :=
  { b.header.toEthersBlock with
      transactions := b.transactions.map TransactionMined.toEthersTransaction }

/-- The empty execution used when a block is rebuilt from the wire shape,
which carries no execution data. -/
def emptyExecution : Execution :=
  { result := .success, output := [], gas := 0, logs := [], changes := []
    contract_address := none }

/-- Modelled from the spec: deserializing one wire transaction back into a
`TransactionMined` (no deserialization impl is part of the provided
sources) — the input and positional fields come back from the wire; the
execution cannot be recovered from this shape and is rebuilt empty. -/
def EthersTransaction.deserializeMined (t : EthersTransaction) : TransactionMined :=
  { input := { hash := t.hash, signer := t.from_address, to_address := t.to_address
               nonce := t.nonce, value := t.value, input := t.input, gas := t.gas
               v := t.v, r := t.r, s := t.s }
    execution := emptyExecution
    index := t.transaction_index.getD 0
    block_hash := t.block_hash.getD 0
    block_number := t.block_number.getD 0 }

/-- Modelled from the spec: deserializing a block from the canonical
Ethereum JSON shape (no deserialization impl is part of the provided
sources) — header fields and transactions are taken back from the wire
value. -/
def Block.deserializeEthers (e : EthersBlock) : Block :=
  { header := { number := e.number.getD 0, parent_hash := e.parent_hash
                state_root := e.state_root, transactions_root := e.transactions_root
                receipts_root := e.receipts_root, logs_bloom := e.logs_bloom.getD 0
                gas_used := e.gas_used, timestamp := e.timestamp
                miner := e.miner.getD 0, hash := e.hash.getD 0 }
    transactions := e.transactions.map EthersTransaction.deserializeMined }

/-! ## Theorems -/

/-- C2: `StratusStorage::commit(b)` calls `permanent.save_block(b)` and then
`temporary.reset()` regardless of the save outcome; when the reset succeeds
the commit result is exactly the save result, a storage conflict included,
reported through the dedicated `Conflict` variant. -/
theorem commit_saves_then_resets (block : Block)
    (save_block : Block → Except EthStorageError Unit)
    (reset : Unit → Except String Unit) :
    (commitGeneric block save_block reset).2 =
        [StorageCall.saveBlock block, StorageCall.resetTemp] ∧
    (reset () = Except.ok () →
        (commitGeneric block save_block reset).1 = save_block block) ∧
    (∀ conflicts, reset () = Except.ok () →
        save_block block = Except.error (EthStorageError.Conflict conflicts) →
        (commitGeneric block save_block reset).1 =
          Except.error (EthStorageError.Conflict conflicts)) := by
  refine ⟨?_, ?_, ?_⟩
  · unfold commitGeneric
    cases reset () <;> rfl
  · intro h
    unfold commitGeneric
    rw [h]
  · intro conflicts hreset hsave
    unfold commitGeneric
    rw [hreset, hsave]

/-- Witness for C2 at a concrete block, save result and reset result. -/
theorem commit_saves_then_resets_witness :
    (commitGeneric (Block.new 1)
        (fun _ => Except.error (EthStorageError.Conflict [⟨1, none, 0, 1⟩]))
        (fun _ => Except.ok ())).1 =
      Except.error (EthStorageError.Conflict [⟨1, none, 0, 1⟩]) :=
  (commit_saves_then_resets (Block.new 1) _ _).2.2 [⟨1, none, 0, 1⟩] rfl rfl

/-- C10: `commit` answers `Ok` only when both `save_block` and the
temporary reset succeed; when the save succeeds but the reset fails, the
reset error is what the caller sees, although the block was saved. -/
theorem commit_ok_requires_both (block : Block)
    (save_block : Block → Except EthStorageError Unit)
    (reset : Unit → Except String Unit) :
    (∀ msg, save_block block = Except.ok () → reset () = Except.error msg →
        (commitGeneric block save_block reset).1 =
          Except.error (EthStorageError.Other msg)) ∧
    ((commitGeneric block save_block reset).1 = Except.ok () →
        save_block block = Except.ok () ∧ reset () = Except.ok ()) := by
  constructor
  · intro msg _ hreset
    unfold commitGeneric
    rw [hreset]
  · intro hok
    unfold commitGeneric at hok
    cases hreset : reset () with
    | error e => rw [hreset] at hok; exact absurd hok (by simp)
    | ok u =>
        cases u
        rw [hreset] at hok
        exact ⟨hok, rfl⟩

/-- Witness for C10: a successful save with a failing reset surfaces the
reset error. -/
theorem commit_ok_requires_both_witness :
    (commitGeneric (Block.new 2) (fun _ => Except.ok ())
        (fun _ => Except.error "reset failed")).1 =
      Except.error (EthStorageError.Other "reset failed") :=
  (commit_ok_requires_both (Block.new 2) _ _).1 "reset failed" rfl rfl

/-- C5: the layered reads fall through from the temporary overlay to the
permanent store, and on a double miss answer a default account carrying the
queried address, respectively a default slot carrying the queried index. -/
theorem read_fallthrough_defaults (s : StratusState) (address : Address)
    (slot_index : SlotIndex) (point_in_time : StoragePointInTime) :
    s.read_account address point_in_time =
      ((s.temp.read_account address).orElse
          (fun _ => s.perm.maybe_read_account address point_in_time)).getD
        { Account.defaultAccount with address := address } ∧
    s.read_slot address slot_index point_in_time =
      ((s.temp.read_slot address slot_index).orElse
          (fun _ => s.perm.maybe_read_slot address slot_index point_in_time)).getD
        { Slot.defaultSlot with index := slot_index } := by
  constructor
  · unfold StratusState.read_account
    cases s.temp.read_account address with
    | some account => rfl
    | none =>
        cases s.perm.maybe_read_account address point_in_time <;> rfl
  · unfold StratusState.read_slot
    cases s.temp.read_slot address slot_index with
    | some slot => rfl
    | none =>
        cases s.perm.maybe_read_slot address slot_index point_in_time <;> rfl

/-- C6: the selection-to-point-in-time translation: `Latest` is `Present`;
`Number(k)` is `Past(k)` up to the current permanent block number and
`Past(current)` above it; `Earliest` and `Hash(h)` resolve through
`read_block` to `Past` of the resolved block's number, and are an error when
no block resolves. -/
theorem translate_to_point_in_time_spec (s : StratusState) :
    (s.translate_to_point_in_time BlockSelection.Latest =
        Except.ok StoragePointInTime.Present) ∧
    (∀ number, number ≤ s.perm.read_current_block_number →
        s.translate_to_point_in_time (BlockSelection.Number number) =
          Except.ok (StoragePointInTime.Past number)) ∧
    (∀ number, s.perm.read_current_block_number < number →
        s.translate_to_point_in_time (BlockSelection.Number number) =
          Except.ok (StoragePointInTime.Past s.perm.read_current_block_number)) ∧
    (∀ block, s.perm.read_block BlockSelection.Earliest = some block →
        s.translate_to_point_in_time BlockSelection.Earliest =
          Except.ok (StoragePointInTime.Past block.header.number)) ∧
    (s.perm.read_block BlockSelection.Earliest = none →
        ∃ msg, s.translate_to_point_in_time BlockSelection.Earliest = Except.error msg) ∧
    (∀ h block, s.perm.read_block (BlockSelection.Hash h) = some block →
        s.translate_to_point_in_time (BlockSelection.Hash h) =
          Except.ok (StoragePointInTime.Past block.header.number)) ∧
    (∀ h, s.perm.read_block (BlockSelection.Hash h) = none →
        ∃ msg, s.translate_to_point_in_time (BlockSelection.Hash h) = Except.error msg) := by
  refine ⟨rfl, ?_, ?_, ?_, ?_, ?_, ?_⟩
  · intro number hle
    simp [StratusState.translate_to_point_in_time, hle]
  · intro number hgt
    simp [StratusState.translate_to_point_in_time, Nat.not_le_of_lt hgt]
  · intro block hblock
    simp [StratusState.translate_to_point_in_time, hblock]
  · intro hnone
    refine ⟨"failed to select block because it is greater than current block number or block hash is invalid.", ?_⟩
    simp only [StratusState.translate_to_point_in_time, hnone]
  · intro h block hblock
    simp [StratusState.translate_to_point_in_time, hblock]
  · intro h hnone
    refine ⟨"failed to select block because it is greater than current block number or block hash is invalid.", ?_⟩
    simp only [StratusState.translate_to_point_in_time, hnone]

/-- A permanent state with genesis committed and tip 2, for the C6 witness. -/
def permC6 : PermanentState :=
  { blocks := [Block.new 0], current_number := 2, accounts := [], account_slots := [] }

/-- A layered storage state for the C6 witness. -/
def stateC6 : StratusState :=
  { temp := InMemoryTemporaryStorageState.empty, perm := permC6 }

/-- Witness for C6: concrete translations on a storage with tip 2 holding
only the genesis block. -/
theorem translate_to_point_in_time_spec_witness :
    stateC6.translate_to_point_in_time (BlockSelection.Number 1) =
        Except.ok (StoragePointInTime.Past 1) ∧
    stateC6.translate_to_point_in_time (BlockSelection.Number 5) =
        Except.ok (StoragePointInTime.Past 2) ∧
    stateC6.translate_to_point_in_time BlockSelection.Earliest =
        Except.ok (StoragePointInTime.Past 0) ∧
    (∃ msg, stateC6.translate_to_point_in_time (BlockSelection.Hash 9) =
        Except.error msg) :=
  ⟨(translate_to_point_in_time_spec stateC6).2.1 1 (by decide),
   (translate_to_point_in_time_spec stateC6).2.2.1 5 (by decide),
   (translate_to_point_in_time_spec stateC6).2.2.2.1 (Block.new 0) (by decide),
   (translate_to_point_in_time_spec stateC6).2.2.2.2.2.2 9 (by decide)⟩

/-- C8: `remove_executions_before(index)` keeps the pending list unchanged
at index 0 and otherwise drains the first `index - 1` executions, so every
retained execution sits `index - 1` positions earlier than before. -/
theorem remove_executions_before_spec (s : InMemoryTemporaryStorageState) (index : Nat) :
    (s.remove_executions_before 0 = some s) ∧
    (0 < index → index - 1 ≤ s.tx_executions.length →
        s.remove_executions_before index =
          some { s with tx_executions := s.tx_executions.drop (index - 1) } ∧
        (s.tx_executions.drop (index - 1)).length =
          s.tx_executions.length - (index - 1) ∧
        ∀ j, (s.tx_executions.drop (index - 1))[j]? =
          s.tx_executions[index - 1 + j]?) := by
  refine ⟨rfl, ?_⟩
  intro hpos hle
  have hne : index ≠ 0 := Nat.pos_iff_ne_zero.mp hpos
  refine ⟨?_, List.length_drop _ _, ?_⟩
  · simp [InMemoryTemporaryStorageState.remove_executions_before, hne, hle]
  · intro j
    exact List.getElem?_drop _ _ _

/-- Witness for C8 on a concrete three-element pending list. -/
def tempC8 : InMemoryTemporaryStorageState :=
  { external_block := none
    tx_executions :=
      [⟨1, emptyExecution⟩, ⟨2, emptyExecution⟩, ⟨3, emptyExecution⟩]
    accounts := []
    active_block_number := some 4 }

/-- Witness for C8: removing before index 2 drains exactly one execution. -/
theorem remove_executions_before_spec_witness :
    tempC8.remove_executions_before 2 =
      some { tempC8 with
              tx_executions := [⟨2, emptyExecution⟩, ⟨3, emptyExecution⟩] } :=
  ((remove_executions_before_spec tempC8 2).2 (by decide) (by decide)).1

/-- C9 counterexample: serializing a block to the canonical Ethereum shape
drops the transactions' logs, so the serialize-then-deserialize round trip
is not the identity on logs; serialization is not even injective on them. -/
def logC9 : Log := { address := 5, topics := [1, 2], data := [3] }

/-- An execution with one log, for the C9 counterexample. -/
def execC9 : Execution :=
  { result := .success, output := [], gas := 21000, logs := [logC9]
    changes := [], contract_address := none }

/-- A mined transaction carrying one log, for the C9 counterexample. -/
def txC9 : TransactionMined :=
  { input := { hash := 10, signer := 1, to_address := some 2, nonce := 0
               value := 0, input := [], gas := 21000, v := 0, r := 0, s := 0 }
    execution := execC9
    index := 0
    block_hash := 7
    block_number := 1 }

/-- A one-transaction block whose transaction carries one log. -/
def blockC9 : Block :=
  { header := BlockHeader.new 1, transactions := [txC9] }

/-- The same block with the log-carrying execution emptied. -/
def blockC9Stripped : Block :=
  { header := BlockHeader.new 1
    transactions := [{ txC9 with execution := emptyExecution }] }

/-- C9 is false as stated: the round trip alters a block whose transaction
has a log, and two blocks differing only in logs serialize identically, so
no deserializer can make the round trip the identity on log fields. -/
theorem block_roundtrip_counterexample :
    Block.deserializeEthers (Block.serializeEthers blockC9) ≠ blockC9 ∧
    Block.serializeEthers blockC9 = Block.serializeEthers blockC9Stripped ∧
    blockC9 ≠ blockC9Stripped := by
  refine ⟨by decide, by decide, by decide⟩

/-- One wire transaction round-trips to the mined transaction with its
execution emptied: input and positional fields all survive. -/
theorem deserialize_serialize_tx (t : TransactionMined) :
    (t.toEthersTransaction).deserializeMined = { t with execution := emptyExecution } := rfl

/-- C9 amended: the round trip through the canonical Ethereum block shape
is the identity on the header and on every transaction's input and
block-positional fields; the executions (logs included) are not carried by
the wire shape and come back empty. -/
theorem block_roundtrip_amended (b : Block) :
    Block.deserializeEthers (Block.serializeEthers b) =
      { b with transactions :=
          b.transactions.map fun t => { t with execution := emptyExecution } } := by
  unfold Block.deserializeEthers Block.serializeEthers BlockHeader.toEthersBlock
  simp [List.map_map, Function.comp, deserialize_serialize_tx]

/-- C4: a zero-signer transaction is rejected up front: no `EvmInput` ever
reaches the worker pool and no commit is attempted, whatever the
environment would have answered. -/
theorem transact_rejects_zero_signer (transaction : TransactionInput)
    (iters : List LoopIteration) (h : transaction.signer = 0) :
    transact transaction iters = .err (.zeroSigner zeroSignerMsg) ∧
    transactEvmDispatches transaction iters = 0 ∧
    transactCommitAttempts transaction iters = 0 := by
  have hz : transaction.signerIsZero = true := by
    simp [TransactionInput.signerIsZero, h]
  exact ⟨by simp [transact, hz], by simp [transactEvmDispatches, hz],
    by simp [transactCommitAttempts, hz]⟩

/-- A zero-signer transaction for the C4 witness. -/
def zeroSignerTx : TransactionInput :=
  { hash := 11, signer := 0, to_address := some 3, nonce := 1, value := 5
    input := [1], gas := 21000, v := 0, r := 0, s := 0 }

/-- An environment that would otherwise succeed, for the C4 witness. -/
def itersC4 : List LoopIteration :=
  [{ evm := Except.ok emptyExecution, conflicts := none, commit := Except.ok () }]

/-- Witness for C4: the concrete zero-signer transaction is rejected with
no dispatch and no commit attempt. -/
theorem transact_rejects_zero_signer_witness :
    transact zeroSignerTx itersC4 = .err (.zeroSigner zeroSignerMsg) ∧
    transactEvmDispatches zeroSignerTx itersC4 = 0 ∧
    transactCommitAttempts zeroSignerTx itersC4 = 0 :=
  transact_rejects_zero_signer zeroSignerTx itersC4 rfl

/-- A retried iteration is skipped by the loop. -/
theorem mine_and_execute_skips_retried (it : LoopIteration) (rest : List LoopIteration)
    (h : it.retries = true) :
    mine_and_execute_transaction (it :: rest) = mine_and_execute_transaction rest := by
  unfold LoopIteration.retries at h
  cases hevm : it.evm with
  | error e => rw [hevm] at h; simp at h
  | ok execution =>
      cases hc : it.conflicts with
      | some conflicts =>
          simp [mine_and_execute_transaction, hevm, hc]
      | none =>
          cases hcommit : it.commit with
          | ok u => rw [hevm, hc, hcommit] at h; simp at h
          | error e =>
              cases e with
              | Conflict conflicts =>
                  simp [mine_and_execute_transaction, hevm, hc, hcommit]
              | Other msg => rw [hevm, hc, hcommit] at h; simp at h

/-- The loop never produces an error carrying the `Conflict` variant. -/
theorem mine_and_execute_no_conflict_error (iters : List LoopIteration)
    (conflicts : ExecutionConflicts) :
    mine_and_execute_transaction iters ≠
      TransactResult.err (.storage (EthStorageError.Conflict conflicts)) := by
  induction iters with
  | nil => simp [mine_and_execute_transaction]
  | cons it rest ih =>
      unfold mine_and_execute_transaction
      cases it.evm with
      | error e => simp
      | ok execution =>
          cases it.conflicts with
          | some c => exact ih
          | none =>
              cases hcommit : it.commit with
              | ok u => simp
              | error e =>
                  cases e with
                  | Conflict c => exact ih
                  | Other msg => simp

/-- Every error the loop produces is an EVM error or a non-conflict
storage error. -/
theorem mine_and_execute_error_shape (iters : List LoopIteration) (e : TransactError)
    (h : mine_and_execute_transaction iters = TransactResult.err e) :
    (∃ msg, e = TransactError.evm msg) ∨
    (∃ msg, e = TransactError.storage (EthStorageError.Other msg)) := by
  induction iters with
  | nil => simp [mine_and_execute_transaction] at h
  | cons it rest ih =>
      unfold mine_and_execute_transaction at h
      cases hevm : it.evm with
      | error msg =>
          rw [hevm] at h
          injection h with h2
          exact Or.inl ⟨msg, h2.symm⟩
      | ok execution =>
          rw [hevm] at h
          cases hc : it.conflicts with
          | some c =>
              rw [hc] at h
              exact ih h
          | none =>
              rw [hc] at h
              cases hcommit : it.commit with
              | ok u => rw [hcommit] at h; simp at h
              | error err =>
                  rw [hcommit] at h
                  cases err with
                  | Conflict c => exact ih h
                  | Other msg =>
                      injection h with h2
                      exact Or.inr ⟨msg, h2.symm⟩

/-- A successful loop run decomposes into retried iterations followed by
the deciding iteration: conflict-free, successfully committed, and the
source of the answered execution. -/
theorem mine_and_execute_success_shape (iters : List LoopIteration) (execution : Execution)
    (h : mine_and_execute_transaction iters = TransactResult.ok execution) :
    ∃ skipped deciding rest, iters = skipped ++ deciding :: rest ∧
      (∀ it ∈ skipped, it.retries = true) ∧
      deciding.evm = Except.ok execution ∧
      deciding.conflicts = none ∧
      deciding.commit = Except.ok () := by
  induction iters with
  | nil => simp [mine_and_execute_transaction] at h
  | cons it rest ih =>
      unfold mine_and_execute_transaction at h
      cases hevm : it.evm with
      | error msg => rw [hevm] at h; simp at h
      | ok execution0 =>
          rw [hevm] at h
          cases hc : it.conflicts with
          | some c =>
              rw [hc] at h
              obtain ⟨l1, d, l2, hsplit, hall, hd1, hd2, hd3⟩ := ih h
              refine ⟨it :: l1, d, l2, by simp [hsplit], ?_, hd1, hd2, hd3⟩
              intro x hx
              rcases List.mem_cons.mp hx with hx | hx
              · subst hx
                unfold LoopIteration.retries
                rw [hevm, hc]
              · exact hall x hx
          | none =>
              rw [hc] at h
              cases hcommit : it.commit with
              | ok u =>
                  rw [hcommit] at h
                  simp only [TransactResult.ok.injEq] at h
                  subst h
                  cases u
                  exact ⟨[], it, rest, rfl, by simp, hevm, hc, hcommit⟩
              | error err =>
                  rw [hcommit] at h
                  cases err with
                  | Conflict c =>
                      obtain ⟨l1, d, l2, hsplit, hall, hd1, hd2, hd3⟩ := ih h
                      refine ⟨it :: l1, d, l2, by simp [hsplit], ?_, hd1, hd2, hd3⟩
                      intro x hx
                      rcases List.mem_cons.mp hx with hx | hx
                      · subst hx
                        unfold LoopIteration.retries
                        rw [hevm, hc, hcommit]
                      · exact hall x hx
                  | Other msg => simp at h

/-- C1: for a non-zero signer, the optimistic loop absorbs every conflict:
a conflicted iteration (pre-mining conflict or commit `Conflict`) is
retried, no conflict ever escapes as the result of `transact`, every error
result is an EVM error or a non-conflict commit error, and a success
returns the execution of the iteration whose commit succeeded, every
earlier iteration having been retried. -/
theorem transact_absorbs_conflicts (transaction : TransactionInput)
    (hsigner : transaction.signer ≠ 0) (iters : List LoopIteration) :
    (∀ it rest, it.retries = true →
        mine_and_execute_transaction (it :: rest) = mine_and_execute_transaction rest) ∧
    (∀ conflicts, transact transaction iters ≠
        TransactResult.err (.storage (EthStorageError.Conflict conflicts))) ∧
    (∀ e, transact transaction iters = TransactResult.err e →
        (∃ msg, e = TransactError.evm msg) ∨
        (∃ msg, e = TransactError.storage (EthStorageError.Other msg))) ∧
    (∀ execution, transact transaction iters = TransactResult.ok execution →
        ∃ skipped deciding rest, iters = skipped ++ deciding :: rest ∧
          (∀ it ∈ skipped, it.retries = true) ∧
          deciding.evm = Except.ok execution ∧
          deciding.conflicts = none ∧
          deciding.commit = Except.ok ()) := by
  have hz : transaction.signerIsZero = false := by
    simp [TransactionInput.signerIsZero, hsigner]
  have htransact : transact transaction iters = mine_and_execute_transaction iters := by
    simp [transact, hz]
  refine ⟨mine_and_execute_skips_retried, ?_, ?_, ?_⟩
  · intro conflicts
    rw [htransact]
    exact mine_and_execute_no_conflict_error iters conflicts
  · intro e he
    rw [htransact] at he
    exact mine_and_execute_error_shape iters e he
  · intro execution he
    rw [htransact] at he
    exact mine_and_execute_success_shape iters execution he

/-- A transaction with a non-zero signer for the C1 witness. -/
def txC1 : TransactionInput :=
  { hash := 12, signer := 1, to_address := some 3, nonce := 0, value := 0
    input := [], gas := 21000, v := 0, r := 0, s := 0 }

/-- An environment trace whose first iteration conflicts pre-mining, whose
second hits a commit conflict and whose third commits. -/
def itersC1 : List LoopIteration :=
  [{ evm := Except.ok emptyExecution, conflicts := some [⟨3, some 1, 0, 7⟩]
     commit := Except.ok () }
   , { evm := Except.ok emptyExecution, conflicts := none
       commit := Except.error (EthStorageError.Conflict [⟨3, some 1, 0, 7⟩]) }
   , { evm := Except.ok emptyExecution, conflicts := none, commit := Except.ok () }]

/-- Witness for C1: on the concrete conflicting trace no conflict error
escapes `transact`. -/
theorem transact_absorbs_conflicts_witness :
    transact txC1 itersC1 ≠
      TransactResult.err (.storage (EthStorageError.Conflict [⟨3, some 1, 0, 7⟩])) :=
  (transact_absorbs_conflicts txC1 (by decide) itersC1).2.1 [⟨3, some 1, 0, 7⟩]

/-- The overlay entry for an address, or a fresh empty one. -/
def overlayAccount (s : InMemoryTemporaryStorageState) (address : Address) :
    InMemoryTemporaryAccount :=
  (alist.get? s.accounts address).getD (InMemoryTemporaryAccount.new address)

/-- The slots actually written by an account change: the present (Some)
slot deltas, in order. -/
def slotWritesOf (c : AccountChange) : List Slot :=
  c.slots.filterMap fun p => p.2.take

/-- The last write in a list of slot writes that carries the given index. -/
def lastWrite : List Slot → SlotIndex → Option Slot
  | [], _ => none
  | slot :: rest, idx =>
      (lastWrite rest idx).orElse fun _ => if slot.index = idx then some slot else none

/-- The bytecode actually written by an account change: only a
doubly-present delta writes bytecode. -/
def bytecodeDelta (c : AccountChange) : Option Bytes :=
  match c.bytecode.take with
  | some (some bc) => some bc
  | _ => none

/-- The account-info fields after one merged change: a present delta
overwrites, an absent one leaves the previous value. -/
theorem applyAccountChange_info (acc : InMemoryTemporaryAccount) (c : AccountChange) :
    (InMemoryTemporaryStorageState.applyAccountChange acc c).info.nonce =
      (c.nonce.take).getD acc.info.nonce ∧
    (InMemoryTemporaryStorageState.applyAccountChange acc c).info.balance =
      (c.balance.take).getD acc.info.balance ∧
    (InMemoryTemporaryStorageState.applyAccountChange acc c).info.bytecode =
      ((bytecodeDelta c).orElse fun _ => acc.info.bytecode) := by
  unfold InMemoryTemporaryStorageState.applyAccountChange bytecodeDelta
  rcases c.nonce.take with _ | n <;>
    rcases c.balance.take with _ | b <;>
      rcases c.bytecode.take with _ | obc <;>
        (try rcases obc with _ | bc) <;>
          rcases c.static_slot_indexes.take with _ | si <;>
            rcases c.mapping_slot_indexes.take with _ | mi <;>
              simp [Option.orElse]

/-- The slots component after one merged change is the slot-write fold. -/
theorem applyAccountChange_slots (acc : InMemoryTemporaryAccount) (c : AccountChange) :
    (InMemoryTemporaryStorageState.applyAccountChange acc c).slots =
      c.slots.foldl
        (fun ss p =>
          match p.2.take with
          | some slot => alist.insert ss slot.index slot
          | none => ss)
        acc.slots := rfl

/-- Looking up an index after folding a list of slot deltas: the last
present write for that index wins, otherwise the previous value is kept. -/
theorem get_foldl_slot_writes (ws : List (SlotIndex × ValueChange Slot))
    (ss : List (SlotIndex × Slot)) (idx : SlotIndex) :
    alist.get?
        (ws.foldl
          (fun ss p =>
            match p.2.take with
            | some slot => alist.insert ss slot.index slot
            | none => ss)
          ss) idx =
      ((lastWrite (ws.filterMap fun p => p.2.take) idx).orElse
        fun _ => alist.get? ss idx) := by
  induction ws generalizing ss with
  | nil =>
      simp only [List.foldl_nil, List.filterMap_nil, lastWrite]
      cases h : alist.get? ss idx <;> simp [Option.orElse, h]
  | cons hd rest ih =>
      obtain ⟨k, vc⟩ := hd
      cases hvc : vc.take with
      | none =>
          simp only [List.foldl_cons, List.filterMap_cons, hvc]
          exact ih ss
      | some slot =>
          simp only [List.foldl_cons, List.filterMap_cons, hvc]
          rw [ih (alist.insert ss slot.index slot)]
          simp only [lastWrite, alist.get_insert]
          cases hlast : lastWrite (rest.filterMap fun p => p.2.take) idx <;>
            by_cases hidx : slot.index = idx <;>
              simp [Option.orElse, hlast, hidx]

/-- C7: merging two executions for the same address is last-writer-wins
per field: nonce, balance and bytecode take the most recent present delta
(an absent delta never overwrites), each slot keyed by its index holds the
most recent present slot write, and both executions are appended in order
to the pending list. -/
theorem save_execution_last_writer_wins (s : InMemoryTemporaryStorageState)
    (tx1 tx2 : TransactionExecution) (c1 c2 : AccountChange) (a : Address)
    (h1 : tx1.execution.changes = [c1]) (h2 : tx2.execution.changes = [c2])
    (ha1 : c1.address = a) (ha2 : c2.address = a) :
    ((s.save_execution tx1).save_execution tx2).tx_executions =
      s.tx_executions ++ [tx1, tx2] ∧
    (alist.get? ((s.save_execution tx1).save_execution tx2).accounts a).isSome = true ∧
    (overlayAccount ((s.save_execution tx1).save_execution tx2) a).info.nonce =
      ((c2.nonce.take).orElse fun _ => c1.nonce.take).getD
        (overlayAccount s a).info.nonce ∧
    (overlayAccount ((s.save_execution tx1).save_execution tx2) a).info.balance =
      ((c2.balance.take).orElse fun _ => c1.balance.take).getD
        (overlayAccount s a).info.balance ∧
    (overlayAccount ((s.save_execution tx1).save_execution tx2) a).info.bytecode =
      ((bytecodeDelta c2).orElse fun _ =>
        (bytecodeDelta c1).orElse fun _ => (overlayAccount s a).info.bytecode) ∧
    (∀ idx,
      alist.get? (overlayAccount ((s.save_execution tx1).save_execution tx2) a).slots idx =
        ((lastWrite (slotWritesOf c2) idx).orElse fun _ =>
          (lastWrite (slotWritesOf c1) idx).orElse fun _ =>
            alist.get? (overlayAccount s a).slots idx)) := by
  have hs1 : s.save_execution tx1 =
      { s with
          accounts := alist.insert s.accounts a
            (InMemoryTemporaryStorageState.applyAccountChange (overlayAccount s a) c1)
          tx_executions := s.tx_executions ++ [tx1] } := by
    simp [InMemoryTemporaryStorageState.save_execution, Execution.changes_to_persist,
      h1, ha1, overlayAccount]
  have hs2 : (s.save_execution tx1).save_execution tx2 =
      { s.save_execution tx1 with
          accounts := alist.insert (s.save_execution tx1).accounts a
            (InMemoryTemporaryStorageState.applyAccountChange
              (overlayAccount (s.save_execution tx1) a) c2)
          tx_executions := (s.save_execution tx1).tx_executions ++ [tx2] } := by
    simp [InMemoryTemporaryStorageState.save_execution, Execution.changes_to_persist,
      h2, ha2, overlayAccount]
  have hacc1 : overlayAccount (s.save_execution tx1) a =
      InMemoryTemporaryStorageState.applyAccountChange (overlayAccount s a) c1 := by
    rw [hs1]
    simp [overlayAccount, alist.get_insert]
  have hacc2 : overlayAccount ((s.save_execution tx1).save_execution tx2) a =
      InMemoryTemporaryStorageState.applyAccountChange
        (InMemoryTemporaryStorageState.applyAccountChange (overlayAccount s a) c1) c2 := by
    rw [hs2, hacc1]
    unfold overlayAccount
    simp [alist.get_insert]
  have hsome : (alist.get? ((s.save_execution tx1).save_execution tx2).accounts a).isSome
      = true := by
    rw [hs2]
    simp [alist.get_insert]
  refine ⟨?_, hsome, ?_, ?_, ?_, ?_⟩
  · rw [hs2, hs1]
    simp
  · rw [hacc2, (applyAccountChange_info _ c2).1, (applyAccountChange_info _ c1).1]
    cases c2.nonce.take <;> cases c1.nonce.take <;> simp [Option.orElse]
  · rw [hacc2, (applyAccountChange_info _ c2).2.1, (applyAccountChange_info _ c1).2.1]
    cases c2.balance.take <;> cases c1.balance.take <;> simp [Option.orElse]
  · rw [hacc2, (applyAccountChange_info _ c2).2.2, (applyAccountChange_info _ c1).2.2]
  · intro idx
    rw [hacc2, applyAccountChange_slots, get_foldl_slot_writes,
      applyAccountChange_slots, get_foldl_slot_writes]
    unfold slotWritesOf
    cases lastWrite (c2.slots.filterMap fun p => p.2.take) idx <;>
      cases lastWrite (c1.slots.filterMap fun p => p.2.take) idx <;>
        simp [Option.orElse]

/-- First change of the C7 witness: writes nonce 1, balance 100 and slot
(1, 10). -/
def changeC7a : AccountChange :=
  { address := 7
    nonce := ValueChange.write 1
    balance := ValueChange.write 100
    bytecode := ValueChange.noChange
    static_slot_indexes := ValueChange.noChange
    mapping_slot_indexes := ValueChange.noChange
    slots := [(1, ValueChange.write { index := 1, value := 10 })] }

/-- Second change of the C7 witness: writes nonce 2 and nothing else, in
particular an absent balance delta and an absent slot delta. -/
def changeC7b : AccountChange :=
  { address := 7
    nonce := ValueChange.write 2
    balance := ValueChange.noChange
    bytecode := ValueChange.noChange
    static_slot_indexes := ValueChange.noChange
    mapping_slot_indexes := ValueChange.noChange
    slots := [(1, ValueChange.noChange)] }

/-- First execution of the C7 witness. -/
def txC7a : TransactionExecution :=
  { hash := 21
    execution := { result := .success, output := [], gas := 0, logs := []
                   changes := [changeC7a], contract_address := none } }

/-- Second execution of the C7 witness. -/
def txC7b : TransactionExecution :=
  { hash := 22
    execution := { result := .success, output := [], gas := 0, logs := []
                   changes := [changeC7b], contract_address := none } }

/-- Witness for C7 on an initially empty overlay: both executions are
appended in order and the merged nonce is the second (most recent) write. -/
theorem save_execution_last_writer_wins_witness :
    ((InMemoryTemporaryStorageState.empty.save_execution txC7a).save_execution
        txC7b).tx_executions =
      InMemoryTemporaryStorageState.empty.tx_executions ++ [txC7a, txC7b] ∧
    (overlayAccount
        ((InMemoryTemporaryStorageState.empty.save_execution txC7a).save_execution
          txC7b) 7).info.nonce =
      ((changeC7b.nonce.take).orElse fun _ => changeC7a.nonce.take).getD
        (overlayAccount InMemoryTemporaryStorageState.empty 7).info.nonce :=
  ⟨(save_execution_last_writer_wins InMemoryTemporaryStorageState.empty txC7a txC7b
      changeC7a changeC7b 7 rfl rfl rfl rfl).1,
   (save_execution_last_writer_wins InMemoryTemporaryStorageState.empty txC7a txC7b
      changeC7a changeC7b 7 rfl rfl rfl rfl).2.2.1⟩

/-- The re-execution loop of the offline import touches only temporary
storage: the permanent component is untouched whatever happens. -/
theorem reexecuteExternal_perm (evm : ExternalTransaction → Except String Execution)
    (receipts : Hash → Option ExternalReceipt) (bn : BlockNumber)
    (txs : List ExternalTransaction) (s : StratusState) (acc : List ReexecutedTriple) :
    (reexecuteExternal evm receipts bn txs s acc).2.perm = s.perm := by
  induction txs generalizing s acc with
  | nil => rfl
  | cons tx rest ih =>
      unfold reexecuteExternal
      cases receipts tx.hash with
      | none => rfl
      | some receipt =>
          dsimp only
          cases evm tx with
          | error e => rfl
          | ok execution =>
              dsimp only
              cases hcomp : execution.compare_with_receipt receipt with
              | error e => rfl
              | ok u =>
                  exact ih
                    (s.save_account_changes bn { hash := tx.hash, execution := execution })
                    (acc ++ [(tx, receipt, execution)])

/-- C3 (amended): when any transaction of the external block fails the
offline re-execution (missing receipt, EVM error or receipt mismatch),
`import_offline` returns that error before calling either
`increment_block_number` or `commit`, and the permanent state — the tip
included — is unchanged.  (Temporary storage is NOT reset on this path: it
keeps what earlier transactions of the block saved; see the
counterexample.) -/
theorem import_offline_aborts_before_commit
    (evm : ExternalTransaction → Except String Execution)
    (receipts : Hash → Option ExternalReceipt) (eb : ExternalBlock)
    (s : StratusState) (e : String)
    (h : (reexecuteExternal evm receipts eb.number eb.transactions s []).1 =
      Except.error e) :
    (import_offline evm receipts eb s).result = Except.error e ∧
    (import_offline evm receipts eb s).permCalls = [] ∧
    (import_offline evm receipts eb s).state.perm = s.perm := by
  have hperm := reexecuteExternal_perm evm receipts eb.number eb.transactions s []
  unfold import_offline
  cases hr : reexecuteExternal evm receipts eb.number eb.transactions s [] with
  | mk res s1 =>
      rw [hr] at h hperm
      cases res with
      | error e2 =>
          cases h
          exact ⟨rfl, rfl, hperm⟩
      | ok triples => simp at h

/-- The external block of the C3 scenario: two transactions. -/
def ebC3 : ExternalBlock :=
  { number := 1, hash := 30
    transactions := [{ hash := 1, payload := [] }, { hash := 2, payload := [] }] }

/-- The execution both transactions of the C3 scenario produce locally. -/
def execC3 : Execution :=
  { result := .success, output := [], gas := 100, logs := []
    changes := [changeC7a], contract_address := none }

/-- The C3 EVM oracle: every re-execution succeeds with `execC3`. -/
def evmC3 (_tx : ExternalTransaction) : Except String Execution := Except.ok execC3

/-- The C3 receipts: the first matches the local re-execution, the second
declares a different gas usage, forcing a mismatch. -/
def receiptsC3 (h : Hash) : Option ExternalReceipt :=
  if h = 1 then
    some { status := .success, contract_address := none, gas_used := 100, logs := [] }
  else if h = 2 then
    some { status := .success, contract_address := none, gas_used := 200, logs := [] }
  else none

/-- The initial storage state of the C3 scenario: everything empty. -/
def s0C3 : StratusState :=
  { temp := InMemoryTemporaryStorageState.empty, perm := PermanentState.empty }

/-- C3 is false as stated: on this block the second transaction mismatches
its receipt and `import_offline` errors with the tip untouched, but the
temporary storage is NOT empty after the call — it still holds the
execution saved for the first transaction. -/
theorem import_offline_counterexample :
    (import_offline evmC3 receiptsC3 ebC3 s0C3).result =
      Except.error "mismatch reexecuting transaction" ∧
    (import_offline evmC3 receiptsC3 ebC3 s0C3).state.perm = s0C3.perm ∧
    (import_offline evmC3 receiptsC3 ebC3 s0C3).state.temp.tx_executions =
      [{ hash := 1, execution := execC3 }] ∧
    (import_offline evmC3 receiptsC3 ebC3 s0C3).state.temp.tx_executions ≠ [] := by
  refine ⟨rfl, rfl, rfl, by decide⟩

/-- Witness for the amended C3 on the concrete mismatching scenario. -/
theorem import_offline_aborts_before_commit_witness :
    (import_offline evmC3 receiptsC3 ebC3 s0C3).permCalls = [] ∧
    (import_offline evmC3 receiptsC3 ebC3 s0C3).state.perm = s0C3.perm :=
  (import_offline_aborts_before_commit evmC3 receiptsC3 ebC3 s0C3
    "mismatch reexecuting transaction" rfl).2

end Stratus
